import Mathlib

/-!
Verification development for the DeTTECT data-source mapping component
(`data_source_mapping.py` and `generic.py`).

The Python data model is shallowly embedded:
* YAML dictionaries become Lean structures; a key that may be absent
  becomes an `Option` field.
* dates are opaque values ordered like `YYYY-MM-DD` strings; they are
  modelled as natural numbers (e.g. `20200101`), since the source only
  compares them with `>`.
* machine integers are `Int`; the float percentage and quality-score
  arithmetic of the source is modelled exactly over `Rat`.
* interactive console input becomes an explicit oracle record.
-/

namespace DeTTECT

/-- One entry of a `score_logbook` (`generic.py` and the YAML files).
`date` is `none` when the entry has no `date` key; `comment` is `none`
when the comment value is YAML null; `auto_generated` is `none` when the
key is absent. -/
structure ScoreObj where
  date : Option Nat
  score : Int
  comment : Option String
  auto_generated : Option Bool
deriving DecidableEq, Repr, Inhabited

/-- A visibility (or detection) YAML object: `applicable_to`, a free-text
comment and the `score_logbook`.  The source normalises a single-dict
logbook to a one-element list before use, so the logbook is a list here. -/
structure VisObject where
  applicable_to : List String
  comment : String
  score_logbook : List ScoreObj
deriving DecidableEq, Repr, Inhabited

/-- Python `score_obj['date'] > newest_date` on two optional dates.  In the
source both dates are present whenever this comparison is reached (a missing
date in a non-head entry would raise `KeyError`); the `none` branches are
therefore never exercised by well-formed input. -/
def optDateGt (a b : Option Nat) : Bool :=
  match a, b with
  | some x, some y => y < x
  | _, _ => false

/-- The scan loop of `get_latest_score_obj` (`generic.py` lines 505-513):
keep the entry whose date is strictly greater than the best so far. -/
def scan_newest : ScoreObj → List ScoreObj → ScoreObj
  | best, [] => best
  | best, o :: os =>
    if optDateGt o.date best.date then scan_newest o os else scan_newest best os

/-- `get_latest_score_obj` (`generic.py` lines 495-515): `none` when the
logbook is empty or its first entry has no `date` key, otherwise the result
of the explicit max-date scan. -/
def get_latest_score_obj (v : VisObject) : Option ScoreObj :=
  match v.score_logbook with
  | [] => none
  | s :: rest => if s.date.isSome then some (scan_newest s rest) else none

/-- `get_latest_comment` (`generic.py` lines 518-532); `empty` is the
value returned for a missing or empty comment (the source default is a
single space). -/
def get_latest_comment (v : VisObject) (empty : String) : String :=
  match get_latest_score_obj v with
  | some s =>
    match s.comment with
    | none => empty
    | some c => if c = "" then empty else c
  | none => empty

/-- `get_latest_date` (`generic.py` lines 535-545). -/
def get_latest_date (v : VisObject) : Option Nat :=
  match get_latest_score_obj v with
  | some s => s.date
  | none => none

/-- `get_latest_auto_generated` (`generic.py` lines 548-561): `false` when
there is no latest score object or the key is absent. -/
def get_latest_auto_generated (v : VisObject) : Bool :=
  match get_latest_score_obj v with
  | some s =>
    match s.auto_generated with
    | some b => b
    | none => false
  | none => false

/-- `get_latest_score` (`generic.py` lines 564-574). -/
def get_latest_score (v : VisObject) : Option Int :=
  match get_latest_score_obj v with
  | some s => some s.score
  | none => none

/-- The visibility score derived from a coverage percentage
(`data_source_mapping.py` line 514):
`0 if result == 0 else 1 if result <= 49 else 2 if result <= 74 else 3 if result <= 99 else 4`. -/
def vis_score_of_result (result : Rat) : Int :=
  if result = 0 then 0
  else if result ≤ 49 then 1
  else if result ≤ 74 then 2
  else if result ≤ 99 then 3
  else 4

/-- The data-source colors `COLOR_DS_25p` … `COLOR_DS_100p` used by
`_map_and_colorize_techniques`; the color constants themselves live in the
(out of scope) constants module, so they are modelled as an enumeration. -/
inductive DSColor where
  | p25 | p50 | p75 | p99 | p100
deriving DecidableEq, Repr

/-- The color chosen for a coverage percentage
(`data_source_mapping.py` lines 221-222):
`COLOR_DS_25p if result <= 25 else COLOR_DS_50p if result <= 50 else COLOR_DS_75p if result <= 75 else COLOR_DS_99p if result <= 99 else COLOR_DS_100p`. -/
def color_of_result (result : Rat) : DSColor :=
  if result ≤ 25 then .p25
  else if result ≤ 50 then .p50
  else if result ≤ 75 then .p75
  else if result ≤ 99 then .p99
  else .p100

/-- Display-tier index of a data-source color (1 = the 1-25% tier … 5 = the
100% tier, following the legend in `get_layer_template_data_sources`). -/
def ds_color_tier : DSColor → Nat
  | .p25 => 1
  | .p50 => 2
  | .p75 => 3
  | .p99 => 4
  | .p100 => 5

/-- The data-quality dimensions that get double weight
(`data_source_mapping.py` line 144). -/
def dq_weighted_keys : List String :=
  ["device_completeness", "data_field_completeness", "retention"]

/-- The score accumulation loop of `export_data_source_list_to_excel`
(`data_source_mapping.py` lines 139-149): weighted sum and weight count
over the `data_quality` items. -/
def dq_fold (items : List (String × Int)) : Int × Int :=
  items.foldl
    (fun sc kv =>
      if kv.1 ∈ dq_weighted_keys then (sc.1 + kv.2 * 2, sc.2 + 2)
      else (sc.1 + kv.2, sc.2 + 1))
    (0, 0)

/-- The aggregate data-quality score (`data_source_mapping.py` lines 150-151):
the weighted sum divided by the weight count when the sum is positive. -/
def dq_score (items : List (String × Int)) : Rat :=
  let sc := dq_fold items
  if 0 < sc.1 then (sc.1 : Rat) / (sc.2 : Rat) else (sc.1 : Rat)

/-- The display-tier bucketing of the aggregate data-quality score
(`data_source_mapping.py` line 153); `none` is the `no_score` sentinel
chosen when the score is at least 6. -/
def dq_format (score : Rat) : Option Nat :=
  if score < 2 then some 1
  else if score < 3 then some 2
  else if score < 4 then some 3
  else if score < 5 then some 4
  else if score < 6 then some 5
  else none

/-- Python `str.lower()` as used on platform names: lower-case every
character of the string (basic latin letters). -/
def str_lower (s : String) : String := ⟨s.data.map Char.toLower⟩

/-- Python `str.upper()` as used on exception technique ids: upper-case
every character of the string (basic latin letters). -/
def str_upper (s : String) : String := ⟨s.data.map Char.toUpper⟩

/-- A STIX external reference: `source_name` and `external_id`
(the only two fields `get_attack_id` reads). -/
structure ExternalRef where
  source_name : String
  external_id : String
deriving DecidableEq, Repr

/-- `get_attack_id` (`generic.py` lines 388-396): the `external_id` of the
first external reference whose `source_name` is in the MITRE allowlist,
`none` when there is no such reference. -/
def get_attack_id : List ExternalRef → Option String
  | [] => none
  | r :: rs =>
    if r.source_name ∈ ["mitre-attack", "mitre-mobile-attack", "mitre-pre-attack"]
    then some r.external_id else get_attack_id rs

/-- A MITRE ATT&CK technique STIX object, restricted to the fields read by
`generate_technique_administration_file`.  `x_mitre_data_sources` is `none`
when the technique has no data-source key at all. -/
structure StixTech where
  name : String
  external_references : List ExternalRef
  x_mitre_platforms : List String
  x_mitre_data_sources : Option (List String)
deriving DecidableEq, Repr

/-- A technique produced by `generate_technique_administration_file`: the
fields the generator fills in explicitly (`technique_id`, `technique_name`,
and the score and date of the single logbook entry of the fresh visibility
object; the remaining fields come from the constant `YAML_OBJ_TECHNIQUE`
template). -/
structure GenTech where
  technique_id : Option String
  technique_name : String
  score : Int
  date : Nat
deriving DecidableEq, Repr

/-- The per-technique body of the scoring loop of
`generate_technique_administration_file` (`data_source_mapping.py`
lines 501-529): `some` technique entry when one is appended to
`yaml_file['techniques']`, `none` when the technique is skipped. -/
def emit_technique (platform : String) (my_data_sources : List String)
    (exceptions : List String) (today : Nat) (t : StixTech) : Option GenTech :=
  if platform ∈ t.x_mitre_platforms.map str_lower then
    match t.x_mitre_data_sources with
    | none => none
    | some dss =>
      let total_ds_count := dss.length
      let ds_count := (dss.filter (fun ds => ds ∈ my_data_sources)).length
      let score : Int :=
        if 0 < total_ds_count then
          vis_score_of_result ((ds_count : Rat) / (total_ds_count : Rat) * 100)
        else 0
      let techniques_upper := exceptions.map str_upper
      let tech_id := get_attack_id t.external_references
      let excepted : Bool :=
        match tech_id with
        | some s => s ∈ techniques_upper
        | none => false
      if 0 < score ∧ excepted = false then
        some ⟨tech_id, t.name, score, today⟩
      else none
  else none

/-- The technique list built by `generate_technique_administration_file`
from the enterprise techniques. -/
def generate_techniques (platform : String) (my_data_sources : List String)
    (exceptions : List String) (today : Nat) (techs : List StixTech) : List GenTech :=
  techs.filterMap (emit_technique platform my_data_sources exceptions today)

/-- Lookup in an association list, mirroring Python `d[k]` / `k in d`
(keys are unique by construction in every use below). -/
def afind {κ α : Type} [DecidableEq κ] : List (κ × α) → κ → Option α
  | [], _ => none
  | (k, v) :: r, k' => if k = k' then some v else afind r k'

/-- Python `d[k] = v`: overwrite the value when the key is present,
otherwise append the new binding. -/
def aset {κ α : Type} [DecidableEq κ] : List (κ × α) → κ → α → List (κ × α)
  | [], k, v => [(k, v)]
  | (k', v') :: r, k, v => if k' = k then (k, v) :: r else (k', v') :: aset r k v

/-- Python `if k not in d: d[k] = dflt`. -/
def aensure {κ α : Type} [DecidableEq κ] (l : List (κ × α)) (k : κ) (dflt : α) :
    List (κ × α) :=
  match afind l k with
  | some _ => l
  | none => l ++ [(k, dflt)]

/-- Modify the value bound to a key (used for `tech_update[tech_id][i] = x`
after the key was ensured). -/
def amodify {κ α : Type} [DecidableEq κ] (f : α → α) : List (κ × α) → κ → List (κ × α)
  | [], _ => []
  | (k', v') :: r, k => if k' = k then (k', f v') :: r else (k', v') :: amodify f r k

/-- A technique entry of the persisted technique administration file,
restricted to the keys `update_technique_administration_file` reads.  A
single-dict `visibility` value is represented by a one-element list (the
source normalises it to exactly that before every use); the `detection`
objects, which the visibility update never touches, are omitted. -/
structure TechRecord where
  technique_id : String
  technique_name : String
  visibility : List VisObject
deriving DecidableEq, Repr, Inhabited

/-- The persisted technique administration file: platform and techniques
(top-level keys not read by the updater are omitted). -/
structure TechAdmin where
  platform : String
  techniques : List TechRecord
deriving DecidableEq, Repr

/-- A freshly generated technique as consumed by
`update_technique_administration_file`: a single visibility object whose
logbook holds the one new auto-generated entry. -/
structure NewTech where
  technique_id : String
  technique_name : String
  visibility : VisObject
deriving DecidableEq, Repr

/-- The output of `generate_technique_administration_file(..., write_file=False)`
as consumed by the updater. -/
structure NewScores where
  platform : String
  techniques : List NewTech
deriving DecidableEq, Repr

/-- The aggregation step of `load_techniques` / `add_entry_to_list_in_dictionary`
(`generic.py` lines 649-701) for the visibility objects: append the object
to the list bound to the technique id, creating the binding on first sight. -/
def add_vis_entry (d : List (String × List VisObject)) (tid : String) (v : VisObject) :
    List (String × List VisObject) :=
  match afind d tid with
  | some vs => aset d tid (vs ++ [v])
  | none => d ++ [(tid, [v])]

/-- The visibility part of `load_techniques`: technique id to the list
of its `applicable_to`-scoped visibility objects, in file order. -/
def load_visibility (techs : List TechRecord) : List (String × List VisObject) :=
  techs.foldl (fun d t => t.visibility.foldl (fun d v => add_vis_entry d t.technique_id v) d) []

/-- `_get_technique_yaml_obj` (`data_source_mapping.py` lines 260-269):
first new technique with the given id. -/
def get_technique_yaml_obj : List NewTech → String → Option NewTech
  | [], _ => none
  | nt :: rest, tid => if nt.technique_id = tid then some nt else get_technique_yaml_obj rest tid

/-- The new score proposed for a technique: the `score` of
`new_tech['visibility']['score_logbook'][0]` (the generator always emits a
one-entry logbook; the source would raise on an empty one). -/
def new_head_obj (nt : NewTech) : ScoreObj :=
  nt.visibility.score_logbook.headD default

/-- The five answer constants `V_UPDATE_ANSWER_1` … `V_UPDATE_ANSWER_4` and
`V_UPDATE_ANSWER_CANCEL` (their display strings live in the constants
module). -/
inductive UpdateAnswer where
  | ans1 | ans2 | ans3 | ans4 | cancel
deriving DecidableEq, Repr

/-- The two update actions `V_UPDATE_ACTION_AUTO` and `V_UPDATE_ACTION_DIFF`. -/
inductive VAction where
  | auto | diff
deriving DecidableEq, Repr

/-- The three multiple-choice question constants shown by the updater. -/
inductive MenuQ where
  | allManual | allAuto | mixedQ
deriving DecidableEq, Repr

/-- The inner classification loop over the visibility objects of one
technique (`data_source_mapping.py` lines 351-359), threading the
`manually_scored` / `auto_scored` flags and the eligible-update count. -/
def classify_objs (new_score : Int) :
    Bool × Bool × Nat → List VisObject → Bool × Bool × Nat
  | st, [] => st
  | (man, aut, cnt), o :: os =>
    let st' :=
      if get_latest_auto_generated o = true ∧ get_latest_score o ≠ some new_score then
        (man, true, cnt + 1)
      else if get_latest_score o ≠ some new_score then
        (true, aut, cnt + 1)
      else (man, aut, cnt)
    classify_objs new_score st' os

/-- The classification flags of the run: `manually_scored`, `auto_scored`,
`mix_scores`. -/
structure Flags where
  manual : Bool
  auto : Bool
  mixed : Bool
deriving DecidableEq, Repr

/-- The outer classification loop (`data_source_mapping.py` lines 339-365):
over the persisted techniques, classify how visibility scores were assigned,
breaking to the mixed state (with the other two flags reset) as soon as both
flags are set after a technique. -/
def classify_go (newTechs : List NewTech) :
    Bool → Bool → Nat → List (String × List VisObject) → Flags × Nat
  | man, aut, cnt, [] => (⟨man, aut, false⟩, cnt)
  | man, aut, cnt, (tid, objs) :: rest =>
    match get_technique_yaml_obj newTechs tid with
    | none => classify_go newTechs man aut cnt rest
    | some nt =>
      let res := classify_objs (new_head_obj nt).score (man, aut, cnt) objs
      if res.1 = true ∧ res.2.1 = true then (⟨false, false, true⟩, res.2.2)
      else classify_go newTechs res.1 res.2.1 res.2.2 rest

/-- The question and answer list of the strategy menu
(`data_source_mapping.py` lines 374-379), determined by the classification
flags alone. -/
def menu_for (f : Flags) : MenuQ × List UpdateAnswer :=
  if f.manual = true then (.allManual, [.ans1, .ans2, .cancel])
  else if f.auto = true then (.allAuto, [.ans1, .ans2, .cancel])
  else (.mixedQ, [.ans3, .ans4, .ans1, .ans2, .cancel])

/-- The action set for one changed visibility object
(`data_source_mapping.py` lines 403-411); `none` for the one fall-through
case (answer 3 with a manually scored object, which is left untouched). -/
def candidate_action (answer : UpdateAnswer) (auto_gen : Bool) : Option VAction :=
  if answer = .ans1 ∨ (answer = .ans3 ∧ auto_gen = true) then some .auto
  else if answer = .ans2 then some .diff
  else if answer = .ans4 then some (if auto_gen then .auto else .diff)
  else none

/-- `tech_update`: technique id to (object index to action and new score
object), with Python dict insertion-order semantics. -/
abbrev TechUpdate := List (String × List (Nat × VAction × ScoreObj))

/-- The inner `tech_update` construction loop over the old visibility
objects of one technique (`data_source_mapping.py` lines 393-412). -/
def build_one (answer : UpdateAnswer) (tid : String) (new_score : Int)
    (new_score_obj : ScoreObj) : Nat → TechUpdate → List VisObject → TechUpdate
  | _, tu, [] => tu
  | obj_idx, tu, o :: os =>
    let tu' :=
      if get_latest_score o ≠ some new_score then
        let tu1 := aensure tu tid []
        match candidate_action answer (get_latest_auto_generated o) with
        | some a => amodify (fun d => aset d obj_idx (a, new_score_obj)) tu1 tid
        | none => tu1
      else tu
    build_one answer tid new_score new_score_obj (obj_idx + 1) tu' os

/-- The `tech_update` construction (`data_source_mapping.py` lines 383-412). -/
def build_tech_update (answer : UpdateAnswer) (newTechs : List NewTech)
    (cur : List (String × List VisObject)) : TechUpdate :=
  newTechs.foldl
    (fun tu nt =>
      match afind cur nt.technique_id with
      | some objs => build_one answer nt.technique_id (new_head_obj nt).score (new_head_obj nt) 0 tu objs
      | none => tu)
    []

/-- The interactive console input consumed by the updater: the yes/no
answer and text for the batch comment prompt, the 1-based pick at the
strategy menu, and the stream of yes/no answers to the per-candidate
review prompts. -/
structure UserOracle where
  fill_comment : Bool
  comment_text : String
  menu_pick : Nat
  diff_answers : Nat → Bool

/-- `ask_multiple_choice` (`generic.py` lines 443-465): the loop re-asks
until the reply is a valid 1-based index, so a run resolves the pick to
`options[pick - 1]`; invalid picks never terminate the loop and are mapped
to `cancel` here only to keep the model total. -/
def ask_multiple_choice (options : List UpdateAnswer) (pick : Nat) : UpdateAnswer :=
  options.getD (pick - 1) .cancel

/-- The two persistence side effects of the updater, in execution order. -/
inductive PEvent where
  | backup | write
deriving DecidableEq, Repr

/-- Mutable state threaded through the apply loop: the
`are_scores_updated` flag, the number of review prompts asked so far, and
the (technique id, object index) pairs whose logbook received the new
entry. -/
structure ApplySt where
  updated : Bool
  prompt_idx : Nat
  applied : List (String × Nat)
deriving Repr

/-- `score_logbook.insert(0, new_score_obj)` on the visibility object at
the given index. -/
def insert_head (vis : List VisObject) (idx : Nat) (obj : ScoreObj) : List VisObject :=
  match vis[idx]? with
  | some o => vis.set idx { o with score_logbook := obj :: o.score_logbook }
  | none => vis

/-- One iteration of the apply `while` loop
(`data_source_mapping.py` lines 427-465) at object index `i`.  When the
index carries an action but is out of range of the visibility list the
source raises `IndexError` (unreachable for a well-formed file pair); the
model leaves everything unchanged there. -/
def apply_one (tid : String) (d : List (Nat × VAction × ScoreObj)) (oracle : UserOracle)
    (st : ApplySt) (vis : List VisObject) (i : Nat) : ApplySt × List VisObject :=
  match afind d i, vis[i]? with
  | some (a, obj), some _ =>
    match a with
    | .auto => (⟨true, st.prompt_idx, st.applied ++ [(tid, i)]⟩, insert_head vis i obj)
    | .diff =>
      if oracle.diff_answers st.prompt_idx then
        (⟨true, st.prompt_idx + 1, st.applied ++ [(tid, i)]⟩, insert_head vis i obj)
      else (⟨st.updated, st.prompt_idx + 1, st.applied⟩, vis)
  | _, _ => (st, vis)

/-- The apply `while` loop over a list of object indices. -/
def apply_idx_go (tid : String) (d : List (Nat × VAction × ScoreObj)) (oracle : UserOracle) :
    List Nat → ApplySt → List VisObject → ApplySt × List VisObject
  | [], st, vis => (st, vis)
  | i :: is, st, vis =>
    let sv := apply_one tid d oracle st vis i
    apply_idx_go tid d oracle is sv.1 sv.2

/-- The per-technique body of the apply loop
(`data_source_mapping.py` lines 416-465): when the technique has pending
updates, run the `while obj_idx <= len(tech_update[tech_id])` loop, i.e.
visit exactly the object indices `0 … len(tech_update[tech_id])`. -/
def apply_tech (tu : TechUpdate) (oracle : UserOracle) (st : ApplySt) (t : TechRecord) :
    ApplySt × TechRecord :=
  match afind tu t.technique_id with
  | none => (st, t)
  | some d =>
    let sv := apply_idx_go t.technique_id d oracle (List.range (d.length + 1)) st t.visibility
    (sv.1, { t with visibility := sv.2 })

/-- The apply loop over all techniques of the in-memory YAML file. -/
def apply_techs (tu : TechUpdate) (oracle : UserOracle) :
    ApplySt → List TechRecord → ApplySt × List TechRecord
  | st, [] => (st, [])
  | st, t :: ts =>
    let p := apply_tech tu oracle st t
    let q := apply_techs tu oracle p.1 ts
    (q.1, p.2 :: q.2)

/-- Set the comment of the first logbook entry of a new technique
(`data_source_mapping.py` line 325); an empty logbook would raise in the
source and is left unchanged here. -/
def set_head_comment (c : String) (nt : NewTech) : NewTech :=
  { nt with visibility :=
    { nt.visibility with score_logbook :=
      match nt.visibility.score_logbook with
      | [] => []
      | s :: rest => { s with comment := some c } :: rest } }

/-- A new technique appended to the YAML file keeps its single visibility
object (a dict in the file, hence a one-element list here). -/
def new_tech_record (nt : NewTech) : TechRecord :=
  ⟨nt.technique_id, nt.technique_name, [nt.visibility]⟩

/-- The new-technique loop (`data_source_mapping.py` lines 320-331): set
the batch comment on the head logbook entry of every new technique, and
collect the records appended for the technique ids absent from the
persisted file, together with the `are_scores_updated` flag. -/
def process_new_go (comment : String) (newIds : List String) :
    List NewTech → List NewTech × List TechRecord × List String × Bool
  | [] => ([], [], [], false)
  | nt :: rest =>
    let nt' := set_head_comment comment nt
    let r := process_new_go comment newIds rest
    if nt.technique_id ∈ newIds then
      (nt' :: r.1, new_tech_record nt' :: r.2.1, nt.technique_id :: r.2.2.1, true)
    else (nt' :: r.1, r.2.1, r.2.2.1, r.2.2.2)

/-- The new-technique block (`data_source_mapping.py` lines 309-337): when
there are new technique ids, resolve the batch comment from the prompt and
run the loop; otherwise nothing is touched. -/
def process_new (oracle : UserOracle) (newTechs : List NewTech) (newIds : List String) :
    List NewTech × List TechRecord × List String × Bool :=
  if newIds.isEmpty then (newTechs, [], [], false)
  else
    process_new_go (if oracle.fill_comment then oracle.comment_text else "") newIds newTechs

/-- The observable outcome of one updater run: whether the platform
mismatch message was printed, whether the user cancelled at the menu, the
final in-memory technique list, the content written back to the store
(`none` when no write happened), the backup/write events in order, the
final `are_scores_updated` flag, the appended technique ids, and the
performed logbook insertions. -/
structure UpdateOutcome where
  platform_mismatch : Bool
  cancelled : Bool
  final_techniques : List TechRecord
  written : Option (List TechRecord)
  events : List PEvent
  scores_updated : Bool
  added_techs : List String
  applied : List (String × Nat)

/-- The new technique ids (`tech_ids_new`, `data_source_mapping.py`
lines 300-306): ids of the derived set absent from the persisted set. -/
def new_tech_ids_not_in_cur (newScores : NewScores)
    (cur : List (String × List VisObject)) : List String :=
  (newScores.techniques.map (fun nt => nt.technique_id)).filter
    (fun tid => afind cur tid = none)

/-- The persistence step (`data_source_mapping.py` lines 467-478): when
`are_scores_updated` is set, back up the store and then write the updated
structure; otherwise neither happens. -/
def persist_phase (added : List String) (res : ApplySt × List TechRecord) : UpdateOutcome :=
  if res.1.updated = true then
    ⟨false, false, res.2, some res.2, [.backup, .write], true, added, res.1.applied⟩
  else
    ⟨false, false, res.2, none, [], false, added, res.1.applied⟩

/-- The updater run from the answered strategy menu on
(`data_source_mapping.py` lines 380-478): return on cancel, otherwise
build `tech_update`, perform the actions and persist. -/
def update_after_menu (oracle : UserOracle) (cur : List (String × List VisObject))
    (newTechs' : List NewTech) (techs1 : List TechRecord) (added : List String)
    (upd0 : Bool) (answer : UpdateAnswer) : UpdateOutcome :=
  if answer = .cancel then
    ⟨false, true, techs1, none, [], upd0, added, []⟩
  else
    persist_phase added
      (apply_techs (build_tech_update answer newTechs' cur) oracle ⟨upd0, 0, []⟩ techs1)

/-- The updater run from the provenance classification on
(`data_source_mapping.py` lines 367-478): when no flag is set nothing
further happens (note: not even the persistence step, so additions alone
are never written); otherwise the strategy menu for the classification is
asked and the run continues with its answer. -/
def update_classified (oracle : UserOracle) (cur : List (String × List VisObject))
    (newTechs' : List NewTech) (techs1 : List TechRecord) (added : List String)
    (upd0 : Bool) : UpdateOutcome :=
  if (classify_go newTechs' false false 0 cur).1.manual = false ∧
      (classify_go newTechs' false false 0 cur).1.auto = false ∧
      (classify_go newTechs' false false 0 cur).1.mixed = false then
    ⟨false, false, techs1, none, [], upd0, added, []⟩
  else
    update_after_menu oracle cur newTechs' techs1 added upd0
      (ask_multiple_choice
        (menu_for (classify_go newTechs' false false 0 cur).1).2 oracle.menu_pick)

/-- `update_technique_administration_file` (`data_source_mapping.py`
lines 272-478) over the already-parsed file contents: refuse on platform
mismatch; append new techniques with the batch comment; classify the
eligible score updates; resolve the strategy menu (returning on cancel);
build and perform the update actions; and back up then write the store
exactly when `are_scores_updated` is set.  (The `fix_date_and_remove_null`
post-processing concerns only the textual serialisation and is outside
this model.) -/
def update_technique_administration_file (newScores : NewScores) (cur_file : TechAdmin)
    (oracle : UserOracle) : UpdateOutcome :=
  if newScores.platform ≠ cur_file.platform then
    ⟨true, false, cur_file.techniques, none, [], false, [], []⟩
  else
    update_classified oracle (load_visibility cur_file.techniques)
      (process_new oracle newScores.techniques
        (new_tech_ids_not_in_cur newScores (load_visibility cur_file.techniques))).1
      (cur_file.techniques ++
        (process_new oracle newScores.techniques
          (new_tech_ids_not_in_cur newScores (load_visibility cur_file.techniques))).2.1)
      (process_new oracle newScores.techniques
        (new_tech_ids_not_in_cur newScores (load_visibility cur_file.techniques))).2.2.1
      (process_new oracle newScores.techniques
        (new_tech_ids_not_in_cur newScores (load_visibility cur_file.techniques))).2.2.2

/-- The candidate provenance list of one technique: for every scoped
visibility object whose latest score differs from the proposed new score,
the `auto_generated` value of its latest entry, in list order. -/
def tech_candidates (ns : Int) (objs : List VisObject) : List Bool :=
  (objs.filter (fun o => get_latest_score o ≠ some ns)).map get_latest_auto_generated

/-- The candidate provenance list of a run: for every persisted technique
that is present in the new derived set, and for every scoped visibility
object whose latest score differs from the new score, the
`auto_generated` value of its latest entry, in scan order. -/
def run_candidates (newTechs : List NewTech) :
    List (String × List VisObject) → List Bool
  | [] => []
  | (tid, objs) :: rest =>
    (match get_technique_yaml_obj newTechs tid with
     | none => []
     | some nt => tech_candidates (new_head_obj nt).score objs)
    ++ run_candidates newTechs rest

lemma scan_newest_mem (l : List ScoreObj) (best : ScoreObj) :
    scan_newest best l ∈ best :: l := by
  induction l generalizing best with
  | nil => simp [scan_newest]
  | cons o os ih =>
    cases hgt : optDateGt o.date best.date with
    | true =>
      simp only [scan_newest, hgt, if_true]
      exact List.mem_cons_of_mem best (ih o)
    | false =>
      simp only [scan_newest, hgt]
      rcases List.mem_cons.mp (ih best) with h | h
      · exact List.mem_cons.mpr (Or.inl h)
      · exact List.mem_cons_of_mem best (List.mem_cons_of_mem o h)

lemma scan_newest_max (l : List ScoreObj) (best : ScoreObj) (d : Nat)
    (hb : best.date = some d) (hl : ∀ o ∈ l, o.date.isSome = true) :
    ∃ m, (scan_newest best l).date = some m ∧ d ≤ m ∧
      ∀ o ∈ l, ∀ x, o.date = some x → x ≤ m := by
  induction l generalizing best d with
  | nil => exact ⟨d, hb, le_refl d, by simp⟩
  | cons o os ih =>
    obtain ⟨y, hy⟩ := Option.isSome_iff_exists.mp (hl o (List.mem_cons_self o os))
    have hos : ∀ o' ∈ os, o'.date.isSome = true :=
      fun o' ho' => hl o' (List.mem_cons_of_mem o ho')
    cases hgt : optDateGt o.date best.date with
    | true =>
      have hd : d < y := by
        rw [hy, hb] at hgt
        simpa [optDateGt] using hgt
      obtain ⟨m, hm1, hm2, hm3⟩ := ih o y hy hos
      refine ⟨m, by simpa [scan_newest, hgt] using hm1,
        le_of_lt (lt_of_lt_of_le hd hm2), ?_⟩
      intro o' ho' x hx
      rcases List.mem_cons.mp ho' with rfl | ho''
      · rw [hy] at hx
        exact (Option.some_injective _ hx) ▸ hm2
      · exact hm3 o' ho'' x hx
    | false =>
      have hyd : y ≤ d := by
        rw [hy, hb] at hgt
        exact le_of_not_lt (by simpa [optDateGt] using hgt)
      obtain ⟨m, hm1, hm2, hm3⟩ := ih best d hb hos
      refine ⟨m, by simpa [scan_newest, hgt] using hm1, hm2, ?_⟩
      intro o' ho' x hx
      rcases List.mem_cons.mp ho' with rfl | ho''
      · rw [hy] at hx
        exact (Option.some_injective _ hx) ▸ le_trans hyd hm2
      · exact hm3 o' ho'' x hx

/-- C5: `latest(history)` is resolved by an explicit max-date scan over the
whole `score_logbook`, independent of list position: for any non-empty
logbook whose entries all carry dates, `get_latest_score_obj` returns an
entry of the logbook carrying the maximum date; and for the two-entry
history `[{date 2020-01-01, score 1}, {date 2022-06-01, score 3}]` stored
in that order, `get_latest_score` resolves to 3. -/
theorem C5_latest_by_max_date_scan :
    (∀ v : VisObject, v.score_logbook ≠ [] →
      (∀ o ∈ v.score_logbook, o.date.isSome = true) →
      ∃ e, get_latest_score_obj v = some e ∧ e ∈ v.score_logbook ∧
        ∃ m, e.date = some m ∧
          ∀ o ∈ v.score_logbook, ∀ x, o.date = some x → x ≤ m) ∧
    get_latest_score
      ⟨[], "", [⟨some 20200101, 1, some "", none⟩, ⟨some 20220601, 3, some "", none⟩]⟩
      = some 3 := by
  constructor
  · intro v hne hdates
    match hv : v.score_logbook with
    | [] => exact absurd hv hne
    | s :: rest =>
      have hs : s.date.isSome = true := hdates s (hv ▸ List.mem_cons_self s rest)
      obtain ⟨d, hd⟩ := Option.isSome_iff_exists.mp hs
      have hrest : ∀ o ∈ rest, o.date.isSome = true :=
        fun o ho => hdates o (hv ▸ List.mem_cons_of_mem s ho)
      obtain ⟨m, hm1, hm2, hm3⟩ := scan_newest_max rest s d hd hrest
      refine ⟨scan_newest s rest, ?_, hv ▸ scan_newest_mem rest s, m, hm1, ?_⟩
      · simp [get_latest_score_obj, hv, hs]
      · intro o ho x hx
        rcases List.mem_cons.mp ho with rfl | ho'
        · rw [hd] at hx
          exact (Option.some_injective _ hx) ▸ hm2
        · exact hm3 o ho' x hx
  · decide

/-- Witness for C5 at the concrete two-entry history of the claim. -/
theorem C5_witness :
    ∃ e, get_latest_score_obj
        ⟨[], "", [⟨some 20200101, 1, some "", none⟩, ⟨some 20220601, 3, some "", none⟩]⟩
        = some e ∧
      e ∈ [(⟨some 20200101, 1, some "", none⟩ : ScoreObj), ⟨some 20220601, 3, some "", none⟩] ∧
      ∃ m, e.date = some m ∧
        ∀ o ∈ [(⟨some 20200101, 1, some "", none⟩ : ScoreObj), ⟨some 20220601, 3, some "", none⟩],
          ∀ x, o.date = some x → x ≤ m :=
  C5_latest_by_max_date_scan.1
    ⟨[], "", [⟨some 20200101, 1, some "", none⟩, ⟨some 20220601, 3, some "", none⟩]⟩
    (by decide) (by decide)

/-- C10: for a visibility or detection object whose `score_logbook` is
empty, or whose first entry has no date, `get_latest_score_obj` returns
`none` (no constraint is placed on the later entries, which may carry
dates); consequently `get_latest_score` and `get_latest_date` return
`none`, `get_latest_auto_generated` returns `false`, and
`get_latest_comment` returns its empty-comment argument. -/
theorem C10_missing_head_date (v : VisObject)
    (h : v.score_logbook = [] ∨
      ∃ s rest, v.score_logbook = s :: rest ∧ s.date = none) :
    get_latest_score_obj v = none ∧ get_latest_score v = none ∧
    get_latest_date v = none ∧ get_latest_auto_generated v = false ∧
    ∀ empty, get_latest_comment v empty = empty := by
  have hobj : get_latest_score_obj v = none := by
    rcases h with h | ⟨s, rest, hsr, hdate⟩
    · simp [get_latest_score_obj, h]
    · simp [get_latest_score_obj, hsr, hdate]
  exact ⟨hobj, by simp [get_latest_score, hobj], by simp [get_latest_date, hobj],
    by simp [get_latest_auto_generated, hobj],
    fun empty => by simp [get_latest_comment, hobj]⟩

/-- Witness for C10 at an object whose head entry lacks a date while the
second entry does carry one. -/
theorem C10_witness :
    get_latest_score_obj
        ⟨["all"], "", [⟨none, 1, some "", some true⟩, ⟨some 20220601, 3, some "", some true⟩]⟩
        = none ∧
    get_latest_score
        ⟨["all"], "", [⟨none, 1, some "", some true⟩, ⟨some 20220601, 3, some "", some true⟩]⟩
        = none ∧
    get_latest_date
        ⟨["all"], "", [⟨none, 1, some "", some true⟩, ⟨some 20220601, 3, some "", some true⟩]⟩
        = none ∧
    get_latest_auto_generated
        ⟨["all"], "", [⟨none, 1, some "", some true⟩, ⟨some 20220601, 3, some "", some true⟩]⟩
        = false ∧
    ∀ empty, get_latest_comment
        ⟨["all"], "", [⟨none, 1, some "", some true⟩, ⟨some 20220601, 3, some "", some true⟩]⟩
        empty = empty :=
  C10_missing_head_date _ (Or.inr ⟨_, _, rfl, rfl⟩)

/-- C2: when the platform of the freshly generated visibility scores
differs from the platform of the persisted technique administration file,
the whole reconciliation is refused up front: the mismatch message is
printed, the function returns, and the persisted store is untouched — no
backup, no write, no insertion, no addition. -/
theorem C2_platform_mismatch_refusal (ns : NewScores) (cf : TechAdmin) (oracle : UserOracle)
    (h : ns.platform ≠ cf.platform) :
    update_technique_administration_file ns cf oracle =
      ⟨true, false, cf.techniques, none, [], false, [], []⟩ := by
  simp [update_technique_administration_file, h]

/-- Witness for C2 at the spec scenario: derived platform windows,
persisted platform linux. -/
theorem C2_witness :
    ("windows" : String) ≠ "linux" ∧
    update_technique_administration_file ⟨"windows", []⟩ ⟨"linux", []⟩
        ⟨false, "", 1, fun _ => true⟩ =
      ⟨true, false, [], none, [], false, [], []⟩ :=
  ⟨by decide, C2_platform_mismatch_refusal _ _ _ (by decide)⟩

/-- C7 counterexample: the claimed boundary values `tier(26) = 2` and
`tier(49) = 2` hold for the colorize mapping (thresholds 25/50/75/99) but
do not match the scorer mapping of the data-model section (thresholds
49/74/99), which yields score 1 at both percentages — the two cited
mappings disagree at the concrete percentage 26. -/
theorem C7_counterexample :
    ds_color_tier (color_of_result 26) = 2 ∧ vis_score_of_result 26 = 1 ∧
    ds_color_tier (color_of_result 49) = 2 ∧ vis_score_of_result 49 = 1 ∧
    (2 : Int) ≠ 1 := by
  refine ⟨?_, ?_, ?_, ?_, by decide⟩ <;> norm_num [color_of_result, ds_color_tier, vis_score_of_result]

/-- C7 amended: both percentage-to-tier mappings are pure step functions
with closed upper boundaries, no gaps and no overlap, but with different
thresholds.  The colorize mapping of `_map_and_colorize_techniques`
(thresholds ≤25, ≤50, ≤75, ≤99) satisfies tier(25)=1, tier(26)=2,
tier(49)=2, tier(50)=2; the scorer mapping of
`generate_technique_administration_file` uses thresholds ≤49, ≤74, ≤99,
under which tier(26)=tier(49)=1 and tier(50)=2. -/
theorem C7_two_step_functions :
    (∀ p : Rat, p ≤ 25 → ds_color_tier (color_of_result p) = 1) ∧
    (∀ p : Rat, 25 < p → p ≤ 50 → ds_color_tier (color_of_result p) = 2) ∧
    (∀ p : Rat, 50 < p → p ≤ 75 → ds_color_tier (color_of_result p) = 3) ∧
    (∀ p : Rat, 75 < p → p ≤ 99 → ds_color_tier (color_of_result p) = 4) ∧
    (∀ p : Rat, 99 < p → ds_color_tier (color_of_result p) = 5) ∧
    ds_color_tier (color_of_result 25) = 1 ∧ ds_color_tier (color_of_result 26) = 2 ∧
    ds_color_tier (color_of_result 49) = 2 ∧ ds_color_tier (color_of_result 50) = 2 ∧
    (∀ p : Rat, p ≠ 0 → p ≤ 49 → vis_score_of_result p = 1) ∧
    (∀ p : Rat, 49 < p → p ≤ 74 → vis_score_of_result p = 2) ∧
    (∀ p : Rat, 74 < p → p ≤ 99 → vis_score_of_result p = 3) ∧
    (∀ p : Rat, 99 < p → vis_score_of_result p = 4) ∧
    vis_score_of_result 26 = 1 ∧ vis_score_of_result 49 = 1 ∧ vis_score_of_result 50 = 2 := by
  refine ⟨?_, ?_, ?_, ?_, ?_, ?_, ?_, ?_, ?_, ?_, ?_, ?_, ?_, ?_, ?_, ?_⟩
  · intro p h1
    simp [color_of_result, h1, ds_color_tier]
  · intro p h1 h2
    rw [color_of_result, if_neg (by linarith), if_pos h2]
    rfl
  · intro p h1 h2
    rw [color_of_result, if_neg (by linarith), if_neg (by linarith), if_pos h2]
    rfl
  · intro p h1 h2
    rw [color_of_result, if_neg (by linarith), if_neg (by linarith), if_neg (by linarith),
      if_pos h2]
    rfl
  · intro p h1
    rw [color_of_result, if_neg (by linarith), if_neg (by linarith), if_neg (by linarith),
      if_neg (by linarith)]
    rfl
  · norm_num [color_of_result, ds_color_tier]
  · norm_num [color_of_result, ds_color_tier]
  · norm_num [color_of_result, ds_color_tier]
  · norm_num [color_of_result, ds_color_tier]
  · intro p h1 h2
    rw [vis_score_of_result, if_neg h1, if_pos h2]
  · intro p h1 h2
    rw [vis_score_of_result, if_neg (by intro h; rw [h] at h1; norm_num at h1),
      if_neg (by linarith), if_pos h2]
  · intro p h1 h2
    rw [vis_score_of_result, if_neg (by intro h; rw [h] at h1; norm_num at h1),
      if_neg (by linarith), if_neg (by linarith), if_pos h2]
  · intro p h1
    rw [vis_score_of_result, if_neg (by intro h; rw [h] at h1; norm_num at h1),
      if_neg (by linarith), if_neg (by linarith), if_neg (by linarith)]
  · norm_num [vis_score_of_result]
  · norm_num [vis_score_of_result]
  · norm_num [vis_score_of_result]

/-- Witness for C7 at concrete boundary percentages of both mappings. -/
theorem C7_witness :
    ds_color_tier (color_of_result 20) = 1 ∧ ds_color_tier (color_of_result 40) = 2 ∧
    ds_color_tier (color_of_result 60) = 3 ∧ ds_color_tier (color_of_result 80) = 4 ∧
    ds_color_tier (color_of_result 100) = 5 ∧ vis_score_of_result 40 = 1 ∧
    vis_score_of_result 60 = 2 ∧ vis_score_of_result 80 = 3 ∧ vis_score_of_result 100 = 4 :=
  ⟨C7_two_step_functions.1 20 (by norm_num),
   C7_two_step_functions.2.1 40 (by norm_num) (by norm_num),
   C7_two_step_functions.2.2.1 60 (by norm_num) (by norm_num),
   C7_two_step_functions.2.2.2.1 80 (by norm_num) (by norm_num),
   C7_two_step_functions.2.2.2.2.1 100 (by norm_num),
   C7_two_step_functions.2.2.2.2.2.2.2.2.2.1 40 (by norm_num) (by norm_num),
   C7_two_step_functions.2.2.2.2.2.2.2.2.2.2.1 60 (by norm_num) (by norm_num),
   C7_two_step_functions.2.2.2.2.2.2.2.2.2.2.2.1 80 (by norm_num) (by norm_num),
   C7_two_step_functions.2.2.2.2.2.2.2.2.2.2.2.2.1 100 (by norm_num)⟩

lemma dq_fold_go (items : List (String × Int)) (s c : Int) :
    items.foldl
      (fun sc kv =>
        if kv.1 ∈ dq_weighted_keys then (sc.1 + kv.2 * 2, sc.2 + 2)
        else (sc.1 + kv.2, sc.2 + 1)) (s, c) =
      (s + (items.map (fun kv => if kv.1 ∈ dq_weighted_keys then kv.2 * 2 else kv.2)).sum,
       c + (items.map (fun kv => if kv.1 ∈ dq_weighted_keys then (2 : Int) else 1)).sum) := by
  induction items generalizing s c with
  | nil => simp
  | cons kv rest ih =>
    by_cases h : kv.1 ∈ dq_weighted_keys
    · simp [h, ih, add_assoc]
    · simp [h, ih, add_assoc]

lemma dq_fold_eq (items : List (String × Int)) :
    dq_fold items =
      ((items.map (fun kv => if kv.1 ∈ dq_weighted_keys then kv.2 * 2 else kv.2)).sum,
       (items.map (fun kv => if kv.1 ∈ dq_weighted_keys then (2 : Int) else 1)).sum) := by
  simpa using dq_fold_go items 0 0

/-- C8: when all five quality dimensions are present, the aggregate
data-quality score equals
`(2 * device_completeness + 2 * data_field_completeness + 2 * retention + timeliness + consistency) / 8`
with zero-valued dimensions still counted in the denominator; it is
invariant under the iteration order of the dimensions, lies in `[0, 5]`
whenever every dimension lies in `[0, 5]`, and is bucketed into display
tiers at thresholds `<2, <3, <4, <5, <6`, with at least 6 mapping to the
no-score sentinel. -/
theorem C8_dq_weighted_aggregate (dc dfc tim con ret : Int) (l : List (String × Int))
    (hperm : l.Perm
      [("device_completeness", dc), ("data_field_completeness", dfc),
       ("timeliness", tim), ("consistency", con), ("retention", ret)])
    (hdc0 : 0 ≤ dc) (hdc5 : dc ≤ 5) (hdfc0 : 0 ≤ dfc) (hdfc5 : dfc ≤ 5)
    (htim0 : 0 ≤ tim) (htim5 : tim ≤ 5) (hcon0 : 0 ≤ con) (hcon5 : con ≤ 5)
    (hret0 : 0 ≤ ret) (hret5 : ret ≤ 5) :
    dq_score l = ((2 * dc + 2 * dfc + 2 * ret + tim + con : Int) : Rat) / 8 ∧
    0 ≤ dq_score l ∧ dq_score l ≤ 5 ∧
    (∀ q : Rat, q < 2 → dq_format q = some 1) ∧
    (∀ q : Rat, 2 ≤ q → q < 3 → dq_format q = some 2) ∧
    (∀ q : Rat, 3 ≤ q → q < 4 → dq_format q = some 3) ∧
    (∀ q : Rat, 4 ≤ q → q < 5 → dq_format q = some 4) ∧
    (∀ q : Rat, 5 ≤ q → q < 6 → dq_format q = some 5) ∧
    (∀ q : Rat, 6 ≤ q → dq_format q = none) := by
  have hfold : dq_fold l = (2 * dc + 2 * dfc + 2 * ret + tim + con, 8) := by
    rw [dq_fold_eq,
      (hperm.map (fun kv => if kv.1 ∈ dq_weighted_keys then kv.2 * 2 else kv.2)).sum_eq,
      (hperm.map (fun kv => if kv.1 ∈ dq_weighted_keys then (2 : Int) else 1)).sum_eq]
    rw [Prod.mk.injEq]
    constructor
    · simp [dq_weighted_keys]
      ring
    · simp [dq_weighted_keys]
  have hS0 : (0 : Int) ≤ 2 * dc + 2 * dfc + 2 * ret + tim + con := by linarith
  have hval : dq_score l = ((2 * dc + 2 * dfc + 2 * ret + tim + con : Int) : Rat) / 8 := by
    rw [dq_score, hfold]
    by_cases hpos : (0 : Int) < 2 * dc + 2 * dfc + 2 * ret + tim + con
    · simp [hpos]
    · have hz : 2 * dc + 2 * dfc + 2 * ret + tim + con = 0 := le_antisymm (not_lt.mp hpos) hS0
      simp [hz]
  refine ⟨hval, ?_, ?_, ?_, ?_, ?_, ?_, ?_, ?_⟩
  · rw [hval]
    have : (0 : Rat) ≤ ((2 * dc + 2 * dfc + 2 * ret + tim + con : Int) : Rat) := by
      exact_mod_cast hS0
    positivity
  · rw [hval]
    have h40 : ((2 * dc + 2 * dfc + 2 * ret + tim + con : Int) : Rat) ≤ 40 := by
      have : (2 * dc + 2 * dfc + 2 * ret + tim + con : Int) ≤ 40 := by linarith
      exact_mod_cast this
    linarith
  · intro q h1
    rw [dq_format, if_pos h1]
  · intro q h1 h2
    rw [dq_format, if_neg (not_lt.mpr h1), if_pos h2]
  · intro q h1 h2
    rw [dq_format, if_neg (by linarith), if_neg (not_lt.mpr h1), if_pos h2]
  · intro q h1 h2
    rw [dq_format, if_neg (by linarith), if_neg (by linarith), if_neg (not_lt.mpr h1),
      if_pos h2]
  · intro q h1 h2
    rw [dq_format, if_neg (by linarith), if_neg (by linarith), if_neg (by linarith),
      if_neg (not_lt.mpr h1), if_pos h2]
  · intro q h1
    rw [dq_format, if_neg (by linarith), if_neg (by linarith), if_neg (by linarith),
      if_neg (by linarith), if_neg (not_lt.mpr h1)]

/-- Witness for C8 at a concrete permuted dimension list with values
device 3, field 2, timeliness 1, consistency 1, retention 4. -/
theorem C8_witness :
    dq_score
        [("retention", 4), ("timeliness", 1), ("device_completeness", 3),
         ("consistency", 1), ("data_field_completeness", 2)] =
      ((2 * 3 + 2 * 2 + 2 * 4 + 1 + 1 : Int) : Rat) / 8 ∧
    0 ≤ dq_score
        [("retention", 4), ("timeliness", 1), ("device_completeness", 3),
         ("consistency", 1), ("data_field_completeness", 2)] ∧
    dq_score
        [("retention", 4), ("timeliness", 1), ("device_completeness", 3),
         ("consistency", 1), ("data_field_completeness", 2)] ≤ 5 ∧
    (∀ q : Rat, q < 2 → dq_format q = some 1) ∧
    (∀ q : Rat, 2 ≤ q → q < 3 → dq_format q = some 2) ∧
    (∀ q : Rat, 3 ≤ q → q < 4 → dq_format q = some 3) ∧
    (∀ q : Rat, 4 ≤ q → q < 5 → dq_format q = some 4) ∧
    (∀ q : Rat, 5 ≤ q → q < 6 → dq_format q = some 5) ∧
    (∀ q : Rat, 6 ≤ q → dq_format q = none) :=
  C8_dq_weighted_aggregate 3 2 1 1 4 _ (by decide) (by decide) (by decide) (by decide)
    (by decide) (by decide) (by decide) (by decide) (by decide) (by decide) (by decide)

lemma vis_score_pos (r : Rat) (h : r ≠ 0) : 0 < vis_score_of_result r := by
  rw [vis_score_of_result, if_neg h]
  split_ifs <;> norm_num

/-- C6: for every enterprise technique on the selected platform the derived
visibility score is the tier of its coverage percentage
`p = 100 * matched / required` under the thresholds
`p = 0 → 0, p ≤ 49 → 1, p ≤ 74 → 2, p ≤ 99 → 3, p = 100 → 4`; techniques
with score 0, with an absent or empty required-data-source list, or whose
ID is in the exceptions list, are excluded from the generated output
entirely. -/
theorem C6_generate_visibility_scores :
    (∀ platform myds exc today t g,
       emit_technique platform myds exc today t = some g →
       ∃ dss, t.x_mitre_data_sources = some dss ∧ 0 < dss.length ∧
         platform ∈ t.x_mitre_platforms.map str_lower ∧
         0 < (dss.filter (fun ds => ds ∈ myds)).length ∧
         g.score = vis_score_of_result
           (((dss.filter (fun ds => ds ∈ myds)).length : Rat) / (dss.length : Rat) * 100) ∧
         0 < g.score ∧ g.date = today ∧
         g.technique_id = get_attack_id t.external_references ∧
         (∀ s, get_attack_id t.external_references = some s →
           s ∉ exc.map str_upper)) ∧
    (∀ platform myds exc today t,
       (t.x_mitre_data_sources = none ∨ t.x_mitre_data_sources = some [] ∨
        (∃ dss, t.x_mitre_data_sources = some dss ∧
          (dss.filter (fun ds => ds ∈ myds)).length = 0) ∨
        (∃ s, get_attack_id t.external_references = some s ∧
          s ∈ exc.map str_upper)) →
       emit_technique platform myds exc today t = none) ∧
    vis_score_of_result 0 = 0 ∧
    (∀ p : Rat, p ≠ 0 → p ≤ 49 → vis_score_of_result p = 1) ∧
    (∀ p : Rat, 49 < p → p ≤ 74 → vis_score_of_result p = 2) ∧
    (∀ p : Rat, 74 < p → p ≤ 99 → vis_score_of_result p = 3) ∧
    vis_score_of_result 100 = 4 ∧
    (∀ platform myds exc today techs,
      generate_techniques platform myds exc today techs =
        techs.filterMap (emit_technique platform myds exc today)) := by
  refine ⟨?_, ?_, by norm_num [vis_score_of_result], ?_, ?_, ?_,
    by norm_num [vis_score_of_result], fun _ _ _ _ _ => rfl⟩
  · intro platform myds exc today t g h
    by_cases hplat : platform ∈ t.x_mitre_platforms.map str_lower
    · cases hds : t.x_mitre_data_sources with
      | none => simp [emit_technique, hplat, hds] at h
      | some dss =>
        by_cases htot : 0 < dss.length
        · simp only [emit_technique, if_pos hplat, hds, htot, if_true] at h
          split_ifs at h with hcond
          · obtain ⟨hscore, hexc⟩ := hcond
            have hcnt : 0 < (dss.filter (fun ds => ds ∈ myds)).length := by
              by_contra hc
              have hc0 : (dss.filter (fun ds => ds ∈ myds)).length = 0 :=
                Nat.eq_zero_of_not_pos hc
              rw [hc0] at hscore
              simp [vis_score_of_result] at hscore
            have hg : g = ⟨get_attack_id t.external_references, t.name,
                vis_score_of_result
                  (((dss.filter (fun ds => ds ∈ myds)).length : Rat) /
                    (dss.length : Rat) * 100), today⟩ :=
              (Option.some_injective _ h).symm
            subst hg
            refine ⟨dss, rfl, htot, hplat, hcnt, rfl, hscore, rfl, rfl, ?_⟩
            intro s hs
            rw [hs] at hexc
            simpa using hexc
        · have hnil : dss = [] := List.length_eq_zero.mp (Nat.eq_zero_of_not_pos htot)
          subst hnil
          simp [emit_technique, hplat, hds] at h
    · simp [emit_technique, hplat] at h
  · intro platform myds exc today t hx
    by_cases hplat : platform ∈ t.x_mitre_platforms.map str_lower
    · rcases hx with hds | hds | ⟨dss, hds, hcnt⟩ | ⟨s, hs, hmem⟩
      · simp [emit_technique, hplat, hds]
      · simp [emit_technique, hplat, hds, vis_score_of_result]
      · by_cases htot : 0 < dss.length
        · have hres : ((dss.filter (fun ds => ds ∈ myds)).length : Rat) /
              (dss.length : Rat) * 100 = 0 := by
            rw [hcnt]
            simp
          simp [emit_technique, hplat, hds, htot, hres, vis_score_of_result]
        · have hnil : dss = [] := List.length_eq_zero.mp (Nat.eq_zero_of_not_pos htot)
          subst hnil
          simp [emit_technique, hplat, hds, vis_score_of_result]
      · cases hds : t.x_mitre_data_sources with
        | none => simp [emit_technique, hplat, hds]
        | some dss => simp [emit_technique, hplat, hds, hs, hmem]
    · simp [emit_technique, hplat]
  · intro p h1 h2
    rw [vis_score_of_result, if_neg h1, if_pos h2]
  · intro p h1 h2
    rw [vis_score_of_result, if_neg (by intro h; rw [h] at h1; norm_num at h1),
      if_neg (by linarith), if_pos h2]
  · intro p h1 h2
    rw [vis_score_of_result, if_neg (by intro h; rw [h] at h1; norm_num at h1),
      if_neg (by linarith), if_neg (by linarith), if_pos h2]

/-- Witness for C6 at the spec scenario: owned sources process monitoring
and file monitoring, technique requiring those two plus network traffic,
coverage 200/3 percent, visibility score 2. -/
theorem C6_witness :
    ∃ dss,
      (⟨"T1", [⟨"mitre-attack", "T1234"⟩], ["Windows"],
        some ["Process monitoring", "File monitoring", "Network traffic"]⟩ :
          StixTech).x_mitre_data_sources = some dss ∧ 0 < dss.length ∧
      "windows" ∈ (["Windows"] : List String).map str_lower ∧
      0 < (dss.filter (fun ds => ds ∈ ["Process monitoring", "File monitoring"])).length ∧
      (2 : Int) = vis_score_of_result
        (((dss.filter (fun ds => ds ∈ ["Process monitoring", "File monitoring"])).length : Rat) /
          (dss.length : Rat) * 100) ∧
      (0 : Int) < 2 ∧ (20230101 : Nat) = 20230101 ∧
      (some "T1234" : Option String) =
        get_attack_id [⟨"mitre-attack", "T1234"⟩] ∧
      (∀ s, get_attack_id [(⟨"mitre-attack", "T1234"⟩ : ExternalRef)] = some s →
        s ∉ ([] : List String).map str_upper) :=
  C6_generate_visibility_scores.1 "windows" ["Process monitoring", "File monitoring"] []
    20230101
    ⟨"T1", [⟨"mitre-attack", "T1234"⟩], ["Windows"],
      some ["Process monitoring", "File monitoring", "Network traffic"]⟩
    ⟨some "T1234", "T1", 2, 20230101⟩ (by
      have hne1 : ("Network traffic" : String) ≠ "Process monitoring" := by decide
      have hne2 : ("Network traffic" : String) ≠ "File monitoring" := by decide
      have hmem : "windows" ∈ (["Windows"] : List String).map str_lower := by decide
      simp only [emit_technique]
      rw [if_pos hmem]
      norm_num [get_attack_id, vis_score_of_result, List.filter, hne1, hne2])

lemma classify_objs_eq (ns : Int) (objs : List VisObject) :
    ∀ man aut cnt, classify_objs ns (man, aut, cnt) objs =
      (man || (tech_candidates ns objs).any (fun b => !b),
       aut || (tech_candidates ns objs).any (fun b => b),
       cnt + (tech_candidates ns objs).length) := by
  induction objs with
  | nil => intro man aut cnt; simp [classify_objs, tech_candidates]
  | cons o os ih =>
    intro man aut cnt
    by_cases hc : get_latest_score o ≠ some ns
    · by_cases ha : get_latest_auto_generated o = true
      · simp only [classify_objs]
        rw [if_pos (And.intro ha hc)]
        rw [ih]
        simp [tech_candidates, List.filter_cons, hc, ha, Nat.add_assoc, Nat.add_comm 1]
      · have ha' : get_latest_auto_generated o = false := by
          simpa using ha
        simp only [classify_objs]
        rw [if_neg (fun hh : get_latest_auto_generated o = true ∧
            get_latest_score o ≠ some ns => ha hh.1)]
        rw [if_pos hc]
        rw [ih]
        simp [tech_candidates, List.filter_cons, hc, ha', Nat.add_assoc, Nat.add_comm 1]
    · simp only [classify_objs]
      rw [if_neg (fun hh : get_latest_auto_generated o = true ∧
          get_latest_score o ≠ some ns => hc hh.2)]
      rw [if_neg hc]
      rw [ih]
      simp [tech_candidates, List.filter_cons, hc]

lemma classify_go_eq (nts : List NewTech) :
    ∀ (l : List (String × List VisObject)) (man aut : Bool) (cnt : Nat),
      ¬(man = true ∧ aut = true) →
      (classify_go nts man aut cnt l).1 =
        (if (man || (run_candidates nts l).any (fun b => !b)) = true ∧
            (aut || (run_candidates nts l).any (fun b => b)) = true
         then ⟨false, false, true⟩
         else ⟨man || (run_candidates nts l).any (fun b => !b),
               aut || (run_candidates nts l).any (fun b => b), false⟩) := by
  intro l
  induction l with
  | nil =>
    intro man aut cnt h
    simp only [classify_go, run_candidates, List.any_nil, Bool.or_false]
    rw [if_neg h]
  | cons p rest ih =>
    obtain ⟨tid, objs⟩ := p
    intro man aut cnt h
    cases hnt : get_technique_yaml_obj nts tid with
    | none =>
      simp only [classify_go, hnt, run_candidates]
      rw [ih man aut cnt h]
      simp
    | some nt =>
      simp only [classify_go, hnt, run_candidates]
      rw [classify_objs_eq]
      by_cases hcond :
          (man || (tech_candidates (new_head_obj nt).score objs).any (fun b => !b)) = true ∧
          (aut || (tech_candidates (new_head_obj nt).score objs).any (fun b => b)) = true
      · rw [if_pos hcond]
        rw [if_pos ?side]
        case side =>
          constructor
          · rw [List.any_append]
            rw [← Bool.or_assoc]
            exact Bool.or_eq_true_iff.mpr (Or.inl hcond.1)
          · rw [List.any_append]
            rw [← Bool.or_assoc]
            exact Bool.or_eq_true_iff.mpr (Or.inl hcond.2)
      · rw [if_neg hcond]
        rw [ih _ _ _ hcond]
        simp [List.any_append, Bool.or_assoc, or_assoc]

/-- C9: the provenance classification is a single run-level decision over
all candidates: with at least one candidate present, the run is classified
all-manual exactly when every candidate's current latest entry is not
auto-generated, all-auto exactly when every candidate's latest is
auto-generated, and mixed exactly when one candidate is auto and another
manual; the classification alone determines which of the three menu shapes
is presented. -/
theorem C9_run_level_classification (newTechs : List NewTech)
    (cur : List (String × List VisObject))
    (h : run_candidates newTechs cur ≠ []) :
    ((classify_go newTechs false false 0 cur).1.manual = true ↔
      ∀ b ∈ run_candidates newTechs cur, b = false) ∧
    ((classify_go newTechs false false 0 cur).1.auto = true ↔
      ∀ b ∈ run_candidates newTechs cur, b = true) ∧
    ((classify_go newTechs false false 0 cur).1.mixed = true ↔
      ((∃ b ∈ run_candidates newTechs cur, b = true) ∧
       (∃ b ∈ run_candidates newTechs cur, b = false))) ∧
    ((classify_go newTechs false false 0 cur).1.manual = true →
      menu_for (classify_go newTechs false false 0 cur).1 =
        (.allManual, [.ans1, .ans2, .cancel])) ∧
    ((classify_go newTechs false false 0 cur).1.auto = true →
      menu_for (classify_go newTechs false false 0 cur).1 =
        (.allAuto, [.ans1, .ans2, .cancel])) ∧
    ((classify_go newTechs false false 0 cur).1.mixed = true →
      menu_for (classify_go newTechs false false 0 cur).1 =
        (.mixedQ, [.ans3, .ans4, .ans1, .ans2, .cancel])) := by
  have hgo := classify_go_eq newTechs cur false false 0 (by simp)
  simp only [Bool.false_or] at hgo
  obtain ⟨b0, c0, hb0⟩ : ∃ b0 c0, run_candidates newTechs cur = b0 :: c0 :=
    List.exists_cons_of_ne_nil h
  by_cases hMA :
      ((run_candidates newTechs cur).any (fun b => !b)) = true ∧
      ((run_candidates newTechs cur).any (fun b => b)) = true
  · rw [if_pos hMA] at hgo
    obtain ⟨bt, hbt, hbtt⟩ := List.any_eq_true.mp hMA.2
    obtain ⟨bf, hbf, hbff⟩ := List.any_eq_true.mp hMA.1
    rw [hgo]
    refine ⟨?_, ?_, ?_, ?_, ?_, ?_⟩
    · simp only [show (⟨false, false, true⟩ : Flags).manual = false from rfl]
      constructor
      · intro hfalse; exact absurd hfalse (by simp)
      · intro hall
        exact absurd (hall bt hbt) (by simp_all)
    · simp only [show (⟨false, false, true⟩ : Flags).auto = false from rfl]
      constructor
      · intro hfalse; exact absurd hfalse (by simp)
      · intro hall
        have := hall bf hbf
        simp_all
    · simp only [show (⟨false, false, true⟩ : Flags).mixed = true from rfl]
      constructor
      · intro _
        exact ⟨⟨bt, hbt, hbtt⟩, ⟨bf, hbf, by simpa using hbff⟩⟩
      · intro _; trivial
    · intro hfalse; exact absurd hfalse (by simp)
    · intro hfalse; exact absurd hfalse (by simp)
    · intro _; rfl
  · rw [if_neg hMA] at hgo
    rw [hgo]
    have hchar_manual :
        ((run_candidates newTechs cur).any (fun b => !b) = true ↔
          ∀ b ∈ run_candidates newTechs cur, b = false) := by
      constructor
      · intro hM
        have hA : ((run_candidates newTechs cur).any (fun b => b)) = false := by
          by_contra hA'
          exact hMA ⟨hM, by simpa using Bool.of_not_eq_false hA'⟩
        intro b hb
        have := List.any_eq_false.mp hA b hb
        simpa using this
      · intro hall
        exact List.any_eq_true.mpr ⟨b0, hb0 ▸ List.mem_cons_self b0 c0,
          by simp [hall b0 (hb0 ▸ List.mem_cons_self b0 c0)]⟩
    have hchar_auto :
        ((run_candidates newTechs cur).any (fun b => b) = true ↔
          ∀ b ∈ run_candidates newTechs cur, b = true) := by
      constructor
      · intro hA
        have hM : ((run_candidates newTechs cur).any (fun b => !b)) = false := by
          by_contra hM'
          exact hMA ⟨by simpa using Bool.of_not_eq_false hM', hA⟩
        intro b hb
        have := List.any_eq_false.mp hM b hb
        simpa using this
      · intro hall
        exact List.any_eq_true.mpr ⟨b0, hb0 ▸ List.mem_cons_self b0 c0,
          hall b0 (hb0 ▸ List.mem_cons_self b0 c0)⟩
    refine ⟨hchar_manual, hchar_auto, ?_, ?_, ?_, ?_⟩
    · simp only [show (⟨(run_candidates newTechs cur).any (fun b => !b),
        (run_candidates newTechs cur).any (fun b => b), false⟩ : Flags).mixed = false from rfl]
      constructor
      · intro hfalse; exact absurd hfalse (by simp)
      · rintro ⟨⟨bt, hbt, hbtt⟩, ⟨bf, hbf, hbff⟩⟩
        exact absurd ⟨List.any_eq_true.mpr ⟨bf, hbf, by simp [hbff]⟩,
          List.any_eq_true.mpr ⟨bt, hbt, hbtt⟩⟩ hMA
    · intro hman
      have haut : ((run_candidates newTechs cur).any (fun b => b)) = false := by
        by_contra hA'
        exact hMA ⟨hman, by simpa using Bool.of_not_eq_false hA'⟩
      rw [menu_for]
      rw [if_pos hman]
    · intro haut
      have hman : ((run_candidates newTechs cur).any (fun b => !b)) = false := by
        by_contra hM'
        exact hMA ⟨by simpa using Bool.of_not_eq_false hM', haut⟩
      rw [menu_for]
      rw [if_neg (by simp [hman]), if_pos haut]
    · intro hfalse; exact absurd hfalse (by simp)

/-- Concrete run for the C9 witness: one persisted technique with a single
manually scored record whose latest score 1 differs from the proposed
score 2. -/
def c9_new : List NewTech :=
  [⟨"T1", "name", ⟨["all"], "", [⟨some 20230101, 2, some "", some true⟩]⟩⟩]

/-- Persisted visibility map for the C9 witness. -/
def c9_cur : List (String × List VisObject) :=
  [("T1", [⟨["all"], "", [⟨some 20200101, 1, some "", some false⟩]⟩])]

/-- Witness for C9 at the concrete single-manual-candidate run. -/
theorem C9_witness :
    ((classify_go c9_new false false 0 c9_cur).1.manual = true ↔
      ∀ b ∈ run_candidates c9_new c9_cur, b = false) ∧
    ((classify_go c9_new false false 0 c9_cur).1.auto = true ↔
      ∀ b ∈ run_candidates c9_new c9_cur, b = true) ∧
    ((classify_go c9_new false false 0 c9_cur).1.mixed = true ↔
      ((∃ b ∈ run_candidates c9_new c9_cur, b = true) ∧
       (∃ b ∈ run_candidates c9_new c9_cur, b = false))) ∧
    ((classify_go c9_new false false 0 c9_cur).1.manual = true →
      menu_for (classify_go c9_new false false 0 c9_cur).1 =
        (.allManual, [.ans1, .ans2, .cancel])) ∧
    ((classify_go c9_new false false 0 c9_cur).1.auto = true →
      menu_for (classify_go c9_new false false 0 c9_cur).1 =
        (.allAuto, [.ans1, .ans2, .cancel])) ∧
    ((classify_go c9_new false false 0 c9_cur).1.mixed = true →
      menu_for (classify_go c9_new false false 0 c9_cur).1 =
        (.mixedQ, [.ans3, .ans4, .ans1, .ans2, .cancel])) :=
  C9_run_level_classification c9_new c9_cur (by decide)

lemma isEmpty_append_bool {α : Type} (a b : List α) :
    (a ++ b).isEmpty = (a.isEmpty && b.isEmpty) := by
  cases a <;> simp [List.isEmpty]

lemma apply_one_spec (tid : String) (d : List (Nat × VAction × ScoreObj))
    (oracle : UserOracle) (st : ApplySt) (vis : List VisObject) (i : Nat) :
    (apply_one tid d oracle st vis i).2.length = vis.length ∧
    (∀ j, j ≠ i → (apply_one tid d oracle st vis i).2[j]? = vis[j]?) ∧
    ((apply_one tid d oracle st vis i).2[i]? = vis[i]? ∨
      ∃ e ov, vis[i]? = some ov ∧
        (apply_one tid d oracle st vis i).2[i]? =
          some { ov with score_logbook := e :: ov.score_logbook }) ∧
    (∃ Δ, (apply_one tid d oracle st vis i).1.applied = st.applied ++ Δ ∧
      (apply_one tid d oracle st vis i).1.updated = (st.updated || !Δ.isEmpty)) := by
  cases hfind : afind d i with
  | none =>
    have hred : apply_one tid d oracle st vis i = (st, vis) := by
      simp only [apply_one, hfind]
    rw [hred]
    exact ⟨rfl, fun j _ => rfl, Or.inl rfl, [], by simp, by simp⟩
  | some p =>
    obtain ⟨a, obj⟩ := p
    cases hv : vis[i]? with
    | none =>
      have hred : apply_one tid d oracle st vis i = (st, vis) := by
        simp only [apply_one, hfind, hv]
      rw [hred]
      exact ⟨rfl, fun j _ => rfl, Or.inl hv, [], by simp, by simp⟩
    | some ov =>
      have hlt : i < vis.length := by
        by_contra hge
        rw [List.getElem?_eq_none (le_of_not_lt hge)] at hv
        exact Option.noConfusion hv
      have hins_len : (insert_head vis i obj).length = vis.length := by
        rw [insert_head, hv, List.length_set]
      have hins_ne : ∀ j, j ≠ i → (insert_head vis i obj)[j]? = vis[j]? := by
        intro j hj
        rw [insert_head, hv]
        exact List.getElem?_set_ne (fun hh => hj hh.symm)
      have hins_i : (insert_head vis i obj)[i]? =
          some { ov with score_logbook := obj :: ov.score_logbook } := by
        rw [insert_head, hv]
        simpa using List.getElem?_set_self hlt
      cases a with
      | auto =>
        have hred : apply_one tid d oracle st vis i =
            (⟨true, st.prompt_idx, st.applied ++ [(tid, i)]⟩, insert_head vis i obj) := by
          simp only [apply_one, hfind, hv]
        rw [hred]
        exact ⟨hins_len, hins_ne, Or.inr ⟨obj, ov, rfl, hins_i⟩, [(tid, i)], rfl, by simp⟩
      | diff =>
        by_cases hda : oracle.diff_answers st.prompt_idx
        · have hred : apply_one tid d oracle st vis i =
              (⟨true, st.prompt_idx + 1, st.applied ++ [(tid, i)]⟩,
                insert_head vis i obj) := by
            simp only [apply_one, hfind, hv, hda, if_true]
          rw [hred]
          exact ⟨hins_len, hins_ne, Or.inr ⟨obj, ov, rfl, hins_i⟩, [(tid, i)], rfl, by simp⟩
        · have hred : apply_one tid d oracle st vis i =
              (⟨st.updated, st.prompt_idx + 1, st.applied⟩, vis) := by
            simp [apply_one, hfind, hv, hda]
          rw [hred]
          exact ⟨rfl, fun j _ => rfl, Or.inl hv, [], by simp, by simp⟩

lemma apply_idx_go_spec (tid : String) (d : List (Nat × VAction × ScoreObj))
    (oracle : UserOracle) :
    ∀ (l : List Nat), l.Nodup → ∀ st vis,
      (apply_idx_go tid d oracle l st vis).2.length = vis.length ∧
      (∀ j, j ∉ l → (apply_idx_go tid d oracle l st vis).2[j]? = vis[j]?) ∧
      (∀ j : Nat, (apply_idx_go tid d oracle l st vis).2[j]? = vis[j]? ∨
        ∃ e ov, vis[j]? = some ov ∧
          (apply_idx_go tid d oracle l st vis).2[j]? =
            some { ov with score_logbook := e :: ov.score_logbook }) ∧
      (∃ Δ, (apply_idx_go tid d oracle l st vis).1.applied = st.applied ++ Δ ∧
        (apply_idx_go tid d oracle l st vis).1.updated = (st.updated || !Δ.isEmpty)) := by
  intro l
  induction l with
  | nil =>
    intro _ st vis
    exact ⟨rfl, fun j _ => rfl, fun j => Or.inl rfl, [],
      by simp [apply_idx_go], by simp [apply_idx_go]⟩
  | cons i is ih =>
    intro hnd st vis
    have hnotmem : i ∉ is := (List.nodup_cons.mp hnd).1
    have hnd' : is.Nodup := (List.nodup_cons.mp hnd).2
    obtain ⟨hlen1, hne1, hi1, Δ1, hap1, hup1⟩ := apply_one_spec tid d oracle st vis i
    obtain ⟨hlen2, hnm2, hall2, Δ2, hap2, hup2⟩ :=
      ih hnd' (apply_one tid d oracle st vis i).1 (apply_one tid d oracle st vis i).2
    have hstep : apply_idx_go tid d oracle (i :: is) st vis =
        apply_idx_go tid d oracle is (apply_one tid d oracle st vis i).1
          (apply_one tid d oracle st vis i).2 := rfl
    rw [hstep]
    refine ⟨hlen2.trans hlen1, ?_, ?_, Δ1 ++ Δ2, ?_, ?_⟩
    · intro j hj
      have hj1 : j ∉ is := fun hh => hj (List.mem_cons_of_mem i hh)
      have hji : j ≠ i := fun hh => hj (hh ▸ List.mem_cons_self i is)
      rw [hnm2 j hj1, hne1 j hji]
    · intro j
      by_cases hji : j = i
      · subst hji
        rw [hnm2 j hnotmem]
        exact hi1
      · rcases hall2 j with h2 | ⟨e, ov, hov, h2⟩
        · exact Or.inl (h2.trans (hne1 j hji))
        · exact Or.inr ⟨e, ov, (hne1 j hji).symm.trans hov, h2⟩
    · rw [hap2, hap1, List.append_assoc]
    · rw [hup2, hup1, isEmpty_append_bool]
      simp [Bool.not_and, Bool.or_assoc]

lemma apply_tech_spec (tu : TechUpdate) (oracle : UserOracle) (st : ApplySt)
    (t : TechRecord) :
    (apply_tech tu oracle st t).2.technique_id = t.technique_id ∧
    (apply_tech tu oracle st t).2.visibility.length = t.visibility.length ∧
    (∀ j : Nat, (apply_tech tu oracle st t).2.visibility[j]? = t.visibility[j]? ∨
      ∃ e ov, t.visibility[j]? = some ov ∧
        (apply_tech tu oracle st t).2.visibility[j]? =
          some { ov with score_logbook := e :: ov.score_logbook }) ∧
    (∃ Δ, (apply_tech tu oracle st t).1.applied = st.applied ++ Δ ∧
      (apply_tech tu oracle st t).1.updated = (st.updated || !Δ.isEmpty)) := by
  cases hfind : afind tu t.technique_id with
  | none =>
    have hred : apply_tech tu oracle st t = (st, t) := by
      simp only [apply_tech, hfind]
    rw [hred]
    exact ⟨rfl, rfl, fun j => Or.inl rfl, [], by simp, by simp⟩
  | some d =>
    obtain ⟨hlen, _, hall, Δ, hap, hup⟩ :=
      apply_idx_go_spec t.technique_id d oracle (List.range (d.length + 1))
        (List.nodup_range _) st t.visibility
    have hred : apply_tech tu oracle st t =
        ((apply_idx_go t.technique_id d oracle (List.range (d.length + 1))
            st t.visibility).1,
         { t with visibility :=
            (apply_idx_go t.technique_id d oracle (List.range (d.length + 1))
              st t.visibility).2 }) := by
      simp only [apply_tech, hfind]
    rw [hred]
    exact ⟨rfl, hlen, hall, Δ, hap, hup⟩

lemma apply_techs_spec (tu : TechUpdate) (oracle : UserOracle) :
    ∀ (l : List TechRecord) (st : ApplySt),
      (apply_techs tu oracle st l).2.length = l.length ∧
      (∀ (i : Nat) (t0 : TechRecord), l[i]? = some t0 →
        ∃ t1 : TechRecord, (apply_techs tu oracle st l).2[i]? = some t1 ∧
        t1.technique_id = t0.technique_id ∧
        t1.visibility.length = t0.visibility.length ∧
        (∀ j : Nat, t1.visibility[j]? = t0.visibility[j]? ∨
          ∃ e ov, t0.visibility[j]? = some ov ∧
            t1.visibility[j]? = some { ov with score_logbook := e :: ov.score_logbook })) ∧
      (∃ Δ, (apply_techs tu oracle st l).1.applied = st.applied ++ Δ ∧
        (apply_techs tu oracle st l).1.updated = (st.updated || !Δ.isEmpty)) := by
  intro l
  induction l with
  | nil =>
    intro st
    refine ⟨rfl, ?_, [], by simp [apply_techs], by simp [apply_techs]⟩
    intro i t0 h
    rw [List.getElem?_nil] at h
    exact Option.noConfusion h
  | cons t ts ih =>
    intro st
    obtain ⟨hid1, hlen1, hall1, Δ1, hap1, hup1⟩ := apply_tech_spec tu oracle st t
    obtain ⟨hlen2, hidx2, Δ2, hap2, hup2⟩ := ih (apply_tech tu oracle st t).1
    have hstep : apply_techs tu oracle st (t :: ts) =
        ((apply_techs tu oracle (apply_tech tu oracle st t).1 ts).1,
         (apply_tech tu oracle st t).2 ::
           (apply_techs tu oracle (apply_tech tu oracle st t).1 ts).2) := rfl
    rw [hstep]
    refine ⟨by simpa using hlen2, ?_, Δ1 ++ Δ2, ?_, ?_⟩
    · intro i t0 h
      match i with
      | 0 =>
        rw [List.getElem?_cons_zero] at h
        refine ⟨(apply_tech tu oracle st t).2, List.getElem?_cons_zero, ?_⟩
        obtain rfl : t = t0 := Option.some_injective _ h
        exact ⟨hid1, hlen1, hall1⟩
      | Nat.succ k =>
        rw [List.getElem?_cons_succ] at h
        obtain ⟨t1, ht1, hrest⟩ := hidx2 k t0 h
        exact ⟨t1, by simpa using ht1, hrest⟩
    · rw [hap2, hap1, List.append_assoc]
    · rw [hup2, hup1, isEmpty_append_bool]
      simp [Bool.not_and, Bool.or_assoc]

lemma process_new_go_flag (c : String) (ids : List String) :
    ∀ l : List NewTech,
      ((process_new_go c ids l).2.2.2 = true ↔ (process_new_go c ids l).2.2.1 ≠ []) := by
  intro l
  induction l with
  | nil => simp [process_new_go]
  | cons nt rest ih =>
    by_cases hmem : nt.technique_id ∈ ids
    · simp [process_new_go, hmem]
    · simpa [process_new_go, hmem] using ih

lemma process_new_flag (oracle : UserOracle) (nts : List NewTech) (ids : List String) :
    ((process_new oracle nts ids).2.2.2 = true ↔ (process_new oracle nts ids).2.2.1 ≠ []) := by
  rw [process_new]
  split_ifs with h h2
  · simp
  · exact process_new_go_flag _ ids nts
  · exact process_new_go_flag _ ids nts

lemma update_classified_cases (oracle : UserOracle) (cur : List (String × List VisObject))
    (nts' : List NewTech) (techs1 : List TechRecord) (added : List String) (upd0 : Bool) :
    update_classified oracle cur nts' techs1 added upd0 =
      ⟨false, false, techs1, none, [], upd0, added, []⟩ ∨
    update_classified oracle cur nts' techs1 added upd0 =
      ⟨false, true, techs1, none, [], upd0, added, []⟩ ∨
    ∃ answer : UpdateAnswer,
      ((apply_techs (build_tech_update answer nts' cur) oracle
          ⟨upd0, 0, []⟩ techs1).1.updated = true ∧
        update_classified oracle cur nts' techs1 added upd0 =
          ⟨false, false,
            (apply_techs (build_tech_update answer nts' cur) oracle ⟨upd0, 0, []⟩ techs1).2,
            some (apply_techs (build_tech_update answer nts' cur) oracle
              ⟨upd0, 0, []⟩ techs1).2,
            [.backup, .write], true, added,
            (apply_techs (build_tech_update answer nts' cur) oracle
              ⟨upd0, 0, []⟩ techs1).1.applied⟩) ∨
      ((apply_techs (build_tech_update answer nts' cur) oracle
          ⟨upd0, 0, []⟩ techs1).1.updated = false ∧
        update_classified oracle cur nts' techs1 added upd0 =
          ⟨false, false,
            (apply_techs (build_tech_update answer nts' cur) oracle ⟨upd0, 0, []⟩ techs1).2,
            none, [], false, added,
            (apply_techs (build_tech_update answer nts' cur) oracle
              ⟨upd0, 0, []⟩ techs1).1.applied⟩) := by
  by_cases hflags :
      (classify_go nts' false false 0 cur).1.manual = false ∧
      (classify_go nts' false false 0 cur).1.auto = false ∧
      (classify_go nts' false false 0 cur).1.mixed = false
  · left
    rw [update_classified, if_pos hflags]
  · right
    rw [update_classified, if_neg hflags]
    by_cases hcancel :
        ask_multiple_choice
          (menu_for (classify_go nts' false false 0 cur).1).2 oracle.menu_pick =
          UpdateAnswer.cancel
    · left
      rw [update_after_menu, if_pos hcancel]
    · right
      refine ⟨ask_multiple_choice
        (menu_for (classify_go nts' false false 0 cur).1).2 oracle.menu_pick, ?_⟩
      rw [update_after_menu, if_neg hcancel]
      cases hupd : (apply_techs (build_tech_update
          (ask_multiple_choice
            (menu_for (classify_go nts' false false 0 cur).1).2 oracle.menu_pick)
          nts' cur) oracle ⟨upd0, 0, []⟩ techs1).1.updated with
      | true =>
        left
        exact ⟨rfl, by rw [persist_phase, if_pos hupd]⟩
      | false =>
        right
        exact ⟨rfl, by rw [persist_phase, if_neg (by simp [hupd])]⟩

/-- C4: a write of the persisted technique administration file happens
only if at least one insertion or new-technique addition occurred, and the
backup event strictly precedes the write event; when no score was updated
and no technique was added, the run performs neither a backup nor a write. -/
theorem C4_backup_before_write (ns : NewScores) (cf : TechAdmin) (oracle : UserOracle) :
    ((update_technique_administration_file ns cf oracle).written.isSome = true →
      (update_technique_administration_file ns cf oracle).events =
        [.backup, .write] ∧
      ((update_technique_administration_file ns cf oracle).applied ≠ [] ∨
       (update_technique_administration_file ns cf oracle).added_techs ≠ [])) ∧
    ((update_technique_administration_file ns cf oracle).applied = [] ∧
     (update_technique_administration_file ns cf oracle).added_techs = [] →
      (update_technique_administration_file ns cf oracle).events = [] ∧
      (update_technique_administration_file ns cf oracle).written = none) := by
  by_cases hp : ns.platform ≠ cf.platform
  · have heq : update_technique_administration_file ns cf oracle =
        ⟨true, false, cf.techniques, none, [], false, [], []⟩ := by
      rw [update_technique_administration_file, if_pos hp]
    rw [heq]
    exact ⟨fun h => absurd h (by simp), fun _ => ⟨rfl, rfl⟩⟩
  · have heq : update_technique_administration_file ns cf oracle =
        update_classified oracle (load_visibility cf.techniques)
          (process_new oracle ns.techniques
            (new_tech_ids_not_in_cur ns (load_visibility cf.techniques))).1
          (cf.techniques ++
            (process_new oracle ns.techniques
              (new_tech_ids_not_in_cur ns (load_visibility cf.techniques))).2.1)
          (process_new oracle ns.techniques
            (new_tech_ids_not_in_cur ns (load_visibility cf.techniques))).2.2.1
          (process_new oracle ns.techniques
            (new_tech_ids_not_in_cur ns (load_visibility cf.techniques))).2.2.2 := by
      rw [update_technique_administration_file, if_neg hp]
    rw [heq]
    rcases update_classified_cases oracle (load_visibility cf.techniques)
        (process_new oracle ns.techniques
          (new_tech_ids_not_in_cur ns (load_visibility cf.techniques))).1
        (cf.techniques ++
          (process_new oracle ns.techniques
            (new_tech_ids_not_in_cur ns (load_visibility cf.techniques))).2.1)
        (process_new oracle ns.techniques
          (new_tech_ids_not_in_cur ns (load_visibility cf.techniques))).2.2.1
        (process_new oracle ns.techniques
          (new_tech_ids_not_in_cur ns (load_visibility cf.techniques))).2.2.2 with
      hcase | hcase | ⟨answer, ⟨hupd, hcase⟩ | ⟨hupd, hcase⟩⟩
    · rw [hcase]
      exact ⟨fun h => absurd h (by simp), fun _ => ⟨rfl, rfl⟩⟩
    · rw [hcase]
      exact ⟨fun h => absurd h (by simp), fun _ => ⟨rfl, rfl⟩⟩
    · rw [hcase]
      obtain ⟨_, _, Δ, hap, hupd'⟩ :=
        apply_techs_spec
          (build_tech_update answer
            (process_new oracle ns.techniques
              (new_tech_ids_not_in_cur ns (load_visibility cf.techniques))).1
            (load_visibility cf.techniques)) oracle
          (cf.techniques ++
            (process_new oracle ns.techniques
              (new_tech_ids_not_in_cur ns (load_visibility cf.techniques))).2.1)
          ⟨(process_new oracle ns.techniques
            (new_tech_ids_not_in_cur ns (load_visibility cf.techniques))).2.2.2, 0, []⟩
      have hor : ((process_new oracle ns.techniques
          (new_tech_ids_not_in_cur ns (load_visibility cf.techniques))).2.2.2 ||
            !Δ.isEmpty) = true :=
        hupd'.symm.trans hupd
      constructor
      · intro _
        refine ⟨rfl, ?_⟩
        rcases Bool.or_eq_true_iff.mp hor with h1 | h1
        · exact Or.inr ((process_new_flag oracle ns.techniques
            (new_tech_ids_not_in_cur ns (load_visibility cf.techniques))).mp h1)
        · have hΔ : Δ ≠ [] := by
            intro hnil
            rw [hnil] at h1
            simp at h1
          left
          show (apply_techs (build_tech_update answer _ _) oracle _ _).1.applied ≠ []
          rw [hap]
          simpa using hΔ
      · rintro ⟨ha, hb⟩
        have hΔnil : Δ = [] := by
          have : (apply_techs (build_tech_update answer _ _) oracle _ _).1.applied = [] := ha
          rw [hap] at this
          simpa using this
        have hupd0 : (process_new oracle ns.techniques
            (new_tech_ids_not_in_cur ns (load_visibility cf.techniques))).2.2.2 = false := by
          by_contra hc
          have ht : (process_new oracle ns.techniques
              (new_tech_ids_not_in_cur ns (load_visibility cf.techniques))).2.2.2 = true :=
            Bool.of_not_eq_false hc
          exact ((process_new_flag oracle ns.techniques
            (new_tech_ids_not_in_cur ns (load_visibility cf.techniques))).mp ht) hb
        rw [hΔnil, hupd0] at hor
        simp at hor
    · rw [hcase]
      exact ⟨fun h => absurd h (by simp), fun _ => ⟨rfl, rfl⟩⟩

/-- Concrete run for the C4 witness: one persisted technique with a single
manually scored record, derived score 3, menu pick 1 (apply all
automatically), giving one insertion and a backup-then-write. -/
def c4_cf : TechAdmin :=
  ⟨"windows", [⟨"T1003", "Credential Dumping",
    [⟨["all"], "", [⟨some 20200101, 2, some "", some false⟩]⟩]⟩]⟩

/-- Derived scores for the C4 witness. -/
def c4_new : NewScores :=
  ⟨"windows", [⟨"T1003", "Credential Dumping",
    ⟨["all"], "", [⟨some 20230101, 3, some "", some true⟩]⟩⟩]⟩

/-- Oracle for the C4 witness. -/
def c4_oracle : UserOracle := ⟨false, "", 1, fun _ => true⟩

/-- Witness for C4: the insertion run backs up before writing, and a run
with nothing to do performs neither backup nor write. -/
theorem C4_witness :
    ((update_technique_administration_file c4_new c4_cf c4_oracle).events =
        [.backup, .write] ∧
      ((update_technique_administration_file c4_new c4_cf c4_oracle).applied ≠ [] ∨
       (update_technique_administration_file c4_new c4_cf c4_oracle).added_techs ≠ [])) ∧
    ((update_technique_administration_file ⟨"windows", []⟩ ⟨"windows", []⟩ c4_oracle).events
        = [] ∧
     (update_technique_administration_file ⟨"windows", []⟩ ⟨"windows", []⟩
        c4_oracle).written = none) :=
  ⟨(C4_backup_before_write c4_new c4_cf c4_oracle).1 (by decide),
   (C4_backup_before_write ⟨"windows", []⟩ ⟨"windows", []⟩ c4_oracle).2 (by decide)⟩

/-- C3: every run of the updater is append-only on the persisted records:
each visibility object of the persisted file either keeps its
`score_logbook` unchanged or receives exactly one new entry at the head,
in which case the length grows by one, the head is the new entry, and the
tail is exactly the prior logbook, unchanged and in its original order. -/
theorem C3_append_only_insertion (ns : NewScores) (cf : TechAdmin) (oracle : UserOracle) :
    ∀ (i j : Nat) (t0 : TechRecord) (v0 : VisObject),
      cf.techniques[i]? = some t0 → t0.visibility[j]? = some v0 →
      ∃ (t1 : TechRecord) (v1 : VisObject),
        (update_technique_administration_file ns cf oracle).final_techniques[i]? =
          some t1 ∧
        t1.technique_id = t0.technique_id ∧ t1.visibility[j]? = some v1 ∧
        (v1.score_logbook = v0.score_logbook ∨
         ∃ e, v1.score_logbook = e :: v0.score_logbook ∧
           v1.score_logbook.length = v0.score_logbook.length + 1 ∧
           v1.score_logbook.head? = some e ∧
           v1.score_logbook.tail = v0.score_logbook) := by
  intro i j t0 v0 hi hj
  have hilt : i < cf.techniques.length := by
    by_contra hge
    rw [List.getElem?_eq_none (le_of_not_lt hge)] at hi
    exact Option.noConfusion hi
  by_cases hp : ns.platform ≠ cf.platform
  · have heq : update_technique_administration_file ns cf oracle =
        ⟨true, false, cf.techniques, none, [], false, [], []⟩ := by
      rw [update_technique_administration_file, if_pos hp]
    rw [heq]
    exact ⟨t0, v0, hi, rfl, hj, Or.inl rfl⟩
  · have heq : update_technique_administration_file ns cf oracle =
        update_classified oracle (load_visibility cf.techniques)
          (process_new oracle ns.techniques
            (new_tech_ids_not_in_cur ns (load_visibility cf.techniques))).1
          (cf.techniques ++
            (process_new oracle ns.techniques
              (new_tech_ids_not_in_cur ns (load_visibility cf.techniques))).2.1)
          (process_new oracle ns.techniques
            (new_tech_ids_not_in_cur ns (load_visibility cf.techniques))).2.2.1
          (process_new oracle ns.techniques
            (new_tech_ids_not_in_cur ns (load_visibility cf.techniques))).2.2.2 := by
      rw [update_technique_administration_file, if_neg hp]
    rw [heq]
    have happend : (cf.techniques ++
        (process_new oracle ns.techniques
          (new_tech_ids_not_in_cur ns (load_visibility cf.techniques))).2.1)[i]? =
        some t0 := by
      rw [List.getElem?_append_left hilt]
      exact hi
    rcases update_classified_cases oracle (load_visibility cf.techniques)
        (process_new oracle ns.techniques
          (new_tech_ids_not_in_cur ns (load_visibility cf.techniques))).1
        (cf.techniques ++
          (process_new oracle ns.techniques
            (new_tech_ids_not_in_cur ns (load_visibility cf.techniques))).2.1)
        (process_new oracle ns.techniques
          (new_tech_ids_not_in_cur ns (load_visibility cf.techniques))).2.2.1
        (process_new oracle ns.techniques
          (new_tech_ids_not_in_cur ns (load_visibility cf.techniques))).2.2.2 with
      hcase | hcase | ⟨answer, ⟨hupd, hcase⟩ | ⟨hupd, hcase⟩⟩
    · rw [hcase]
      exact ⟨t0, v0, happend, rfl, hj, Or.inl rfl⟩
    · rw [hcase]
      exact ⟨t0, v0, happend, rfl, hj, Or.inl rfl⟩
    · rw [hcase]
      obtain ⟨_, hidx, _, _, _⟩ :=
        apply_techs_spec
          (build_tech_update answer
            (process_new oracle ns.techniques
              (new_tech_ids_not_in_cur ns (load_visibility cf.techniques))).1
            (load_visibility cf.techniques)) oracle
          (cf.techniques ++
            (process_new oracle ns.techniques
              (new_tech_ids_not_in_cur ns (load_visibility cf.techniques))).2.1)
          ⟨(process_new oracle ns.techniques
            (new_tech_ids_not_in_cur ns (load_visibility cf.techniques))).2.2.2, 0, []⟩
      obtain ⟨t1, ht1, hid, _, hall⟩ := hidx i t0 happend
      rcases hall j with hsame | ⟨e, ov, hov, hcons⟩
      · exact ⟨t1, v0, ht1, hid, hsame.trans hj, Or.inl rfl⟩
      · obtain rfl : ov = v0 := Option.some_injective _ (hov.symm.trans hj)
        exact ⟨t1, { ov with score_logbook := e :: ov.score_logbook }, ht1, hid, hcons,
          Or.inr ⟨e, rfl, by simp, rfl, rfl⟩⟩
    · rw [hcase]
      obtain ⟨_, hidx, _, _, _⟩ :=
        apply_techs_spec
          (build_tech_update answer
            (process_new oracle ns.techniques
              (new_tech_ids_not_in_cur ns (load_visibility cf.techniques))).1
            (load_visibility cf.techniques)) oracle
          (cf.techniques ++
            (process_new oracle ns.techniques
              (new_tech_ids_not_in_cur ns (load_visibility cf.techniques))).2.1)
          ⟨(process_new oracle ns.techniques
            (new_tech_ids_not_in_cur ns (load_visibility cf.techniques))).2.2.2, 0, []⟩
      obtain ⟨t1, ht1, hid, _, hall⟩ := hidx i t0 happend
      rcases hall j with hsame | ⟨e, ov, hov, hcons⟩
      · exact ⟨t1, v0, ht1, hid, hsame.trans hj, Or.inl rfl⟩
      · obtain rfl : ov = v0 := Option.some_injective _ (hov.symm.trans hj)
        exact ⟨t1, { ov with score_logbook := e :: ov.score_logbook }, ht1, hid, hcons,
          Or.inr ⟨e, rfl, by simp, rfl, rfl⟩⟩

/-- Witness for C3 at the concrete one-insertion run of the C4 witness
inputs: the single persisted record either kept or extended by one leading
entry. -/
theorem C3_witness :
    ∃ (t1 : TechRecord) (v1 : VisObject),
      (update_technique_administration_file c4_new c4_cf c4_oracle).final_techniques[0]? =
        some t1 ∧
      t1.technique_id = (⟨"T1003", "Credential Dumping",
        [⟨["all"], "", [⟨some 20200101, 2, some "", some false⟩]⟩]⟩ :
          TechRecord).technique_id ∧
      t1.visibility[0]? = some v1 ∧
      (v1.score_logbook =
          [(⟨some 20200101, 2, some "", some false⟩ : ScoreObj)] ∨
       ∃ e, v1.score_logbook = e :: [(⟨some 20200101, 2, some "", some false⟩ : ScoreObj)] ∧
         v1.score_logbook.length =
           [(⟨some 20200101, 2, some "", some false⟩ : ScoreObj)].length + 1 ∧
         v1.score_logbook.head? = some e ∧
         v1.score_logbook.tail =
           [(⟨some 20200101, 2, some "", some false⟩ : ScoreObj)]) :=
  C3_append_only_insertion c4_new c4_cf c4_oracle 0 0
    ⟨"T1003", "Credential Dumping",
      [⟨["all"], "", [⟨some 20200101, 2, some "", some false⟩]⟩]⟩
    ⟨["all"], "", [⟨some 20200101, 2, some "", some false⟩]⟩
    (by decide) (by decide)

/-- Persisted file for the C1 failing input: one technique with three
`applicable_to`-scoped visibility records whose latest scores are 2, 2
and 1; only the third record (object index 2) differs from the derived
score 2. -/
def c1_cf : TechAdmin :=
  ⟨"windows", [⟨"T1003", "Credential Dumping",
    [⟨["scope0"], "", [⟨some 20200101, 2, some "", some true⟩]⟩,
     ⟨["scope1"], "", [⟨some 20200101, 2, some "", some true⟩]⟩,
     ⟨["scope2"], "", [⟨some 20200101, 1, some "", some true⟩]⟩]⟩]⟩

/-- Derived scores for the C1 failing input: score 2 for the technique. -/
def c1_new : NewScores :=
  ⟨"windows", [⟨"T1003", "Credential Dumping",
    ⟨["all"], "", [⟨some 20230101, 2, some "", some true⟩]⟩⟩]⟩

/-- Oracle for the C1 failing input: menu pick 1, which in the all-auto
menu resolves to apply-all-automatically. -/
def c1_oracle : UserOracle := ⟨false, "", 1, fun _ => true⟩

/-- C1, evaluating the code at the failing input: the run has exactly one
candidate (the auto-scored record at object index 2), the chosen strategy
resolves to apply-all-automatically, and `tech_update` duly records the
approved action for index 2 — yet the apply loop, which only visits object
indices up to `len(tech_update[tech_id])` = 1, performs no insertion: the
store is left unchanged, with no backup and no write, contradicting the
claim that no candidate is skipped. -/
theorem C1_sparse_candidate_skipped :
    run_candidates c1_new.techniques (load_visibility c1_cf.techniques) = [true] ∧
    ask_multiple_choice
      (menu_for (classify_go c1_new.techniques false false 0
        (load_visibility c1_cf.techniques)).1).2 c1_oracle.menu_pick = .ans1 ∧
    (afind (build_tech_update .ans1 c1_new.techniques
        (load_visibility c1_cf.techniques)) "T1003").map
      (fun d => d.map (fun p => p.1)) = some [2] ∧
    (update_technique_administration_file c1_new c1_cf c1_oracle).applied = [] ∧
    (update_technique_administration_file c1_new c1_cf c1_oracle).final_techniques =
      c1_cf.techniques ∧
    (update_technique_administration_file c1_new c1_cf c1_oracle).events = [] ∧
    (update_technique_administration_file c1_new c1_cf c1_oracle).written = none := by
  decide

end DeTTECT
